import Mathlib

/-!
Verification of the ZeroFrameJS client core (`src/src/index.js`).

The development shallowly embeds the client's state and handlers:
JavaScript values appearing in wire frames and options objects are
modelled by `JSVal`; the mutable fields of a `ZeroFrame` instance by the
`Client` structure; the observable actions of a handler (socket sends,
callback invocations, scheduled reconnects, user hooks) by the `Effect`
list it returns alongside the updated state.
-/

/-- JavaScript values as they appear in JSON frames and option objects. -/
inductive JSVal where
  | null
  | undefined
  | bool (b : Bool)
  | num (n : Int)
  | str (s : String)
  | arr (items : List JSVal)
  | obj (fields : List (String × JSVal))

/-- JavaScript truthiness of a `JSVal` (`if (v)`). -/
def truthy : JSVal → Bool
  | .null => false
  | .undefined => false
  | .bool b => b
  | .num n => n != 0
  | .str s => s != ""
  | .arr _ => true
  | .obj _ => true

/-- Property access `v[k]`: `undefined` on absent keys and non-objects. -/
def getField (v : JSVal) (k : String) : JSVal :=
  match v with
  | .obj fields =>
    match fields.lookup k with
    | some w => w
    | none => .undefined
  | _ => .undefined

/-- Strict equality `v === s` against a string literal. -/
def isStr (v : JSVal) (s : String) : Bool :=
  match v with
  | .str t => t == s
  | _ => false

/-- The test `typeof v === 'object' && v !== null` from the proxy handler
(arrays and plain objects pass, `null` is explicitly excluded). -/
def isObjectArg (v : JSVal) : Bool :=
  match v with
  | .obj _ => true
  | .arr _ => true
  | _ => false

/-- Whether a value is a plain object (for the recursive options merge). -/
def isObjVal (v : JSVal) : Bool :=
  match v with
  | .obj _ => true
  | _ => false

/-- Numeric coercion used when reading configured numbers out of the
merged options object (the defaults always hold numbers there). -/
def jsInt : JSVal → Int
  | .num n => n
  | _ => 0

/-- Assignment `target[k] = v` on an object's field list: an existing key
is overwritten in place, a new key is appended. -/
def setField (fields : List (String × JSVal)) (k : String) (v : JSVal) :
    List (String × JSVal) :=
  if fields.any (fun p => p.1 == k) then
    fields.map (fun p => if p.1 == k then (k, v) else p)
  else
    fields ++ [(k, v)]

mutual

/-- Field-list part of the `recursive-object-assign` dependency used at
`index.js:22`: for each source key, compute the merged value for that
key and store it in the target. The JavaScript original mutates the
target in place and returns it; the model returns the mutated field
list. -/
def mergeFields (tf : List (String × JSVal)) : List (String × JSVal) → List (String × JSVal)
  | [] => tf
  | (k, sv) :: rest => mergeFields (setField tf k (mergeEntry (tf.lookup k) sv)) rest
termination_by l => sizeOf l
decreasing_by
  all_goals simp_wf
  all_goals omega

/-- Merged value for one key: when both the target's current value and
the source value are plain objects, merge recursively; otherwise the
source value overwrites. -/
def mergeEntry : Option JSVal → JSVal → JSVal
  | some (JSVal.obj a), JSVal.obj b => JSVal.obj (mergeFields a b)
  | _, sv => sv
termination_by _ v => sizeOf v
decreasing_by
  all_goals simp_wf

end

/-- Model of `recursiveAssign(target, source)` (the
`recursive-object-assign` dependency): deep merge of `source` into
`target`, mutating and returning `target`. -/
def recursiveAssign (target source : JSVal) : JSVal :=
  match target, source with
  | .obj tf, .obj sf => .obj (mergeFields tf sf)
  | t, _ => t

/-- An outbound message as handled by `_send`: `cmd`/`cmdp` build
`{cmd, params}`, `response` builds `{cmd: "response", to, result}`; `id`
is assigned by `_send` when absent, and `processed` is the flag set by
the open handler when a queued message is flushed (absent, i.e. `false`,
until then). -/
structure Message where
  id : Option Int := none
  cmd : String
  params : Option JSVal := none
  toVal : Option JSVal := none
  result : Option JSVal := none
  processed : Bool := false

/-- Observable actions of a handler: a frame handed to the open socket
(`websocket.send`), the invocation of a stored completion callback
(annotated with the table key it was stored under; callbacks themselves
are identified by an opaque tag), the user-level request hook, a
reconnect timer being scheduled, and the user-level close/open hooks. -/
inductive Effect where
  | wireSend (m : Message)
  | invokeCallback (key : Int) (tag : Nat) (result : JSVal)
  | appRequest (cmd : JSVal) (message : JSVal)
  | scheduleReconnect (delay : Int)
  | closeHook
  | openHook

/-- The mutable state of a `ZeroFrame` instance (constructor lines
41-45), together with the reconnect policy read from the merged
options. Completion callbacks are stored as opaque tags in an
association list mirroring the `waitingCallbacks` object. -/
structure Client where
  websocketConnected : Bool
  waitingMessages : List Message
  waitingCallbacks : List (Int × Nat)
  nextMessageId : Int
  nextAttemptId : Int
  reconnectAttempts : Int
  reconnectDelay : Int

/-- The test `!message.id`: true when the identifier is absent, and also
for an explicit `0` (JavaScript falsiness). -/
def idMissing : Option Int → Bool
  | none => true
  | some n => n == 0

/-- Deletion `delete waitingCallbacks[k]` (object keys are unique, so
removing every binding for `k` matches the JavaScript semantics). -/
def eraseKey : List (Int × Nat) → Int → List (Int × Nat)
  | [], _ => []
  | p :: rest, k => if p.1 == k then eraseKey rest k else p :: eraseKey rest k

/-- Assignment `waitingCallbacks[k] = cb`, keeping keys unique. -/
def setKey (t : List (Int × Nat)) (k : Int) (v : Nat) : List (Int × Nat) :=
  (k, v) :: eraseKey t k

/-- The key a message's callback is registered under (`message.id` is
always set once `_send` has run its assignment step). -/
def msgKey (m : Message) : Int := m.id.getD 0

/-- `_send(message, cb)` (index.js lines 375-390): assign the next
sequential identifier when the message lacks one; transmit immediately
when the socket is connected, otherwise append to `waitingMessages`;
finally register the callback, if any, under the message's identifier. -/
def _send (c : Client) (message : Message) (cb : Option Nat) : Client × List Effect :=
  let (message, c) :=
    if idMissing message.id then
      ({ message with id := some c.nextMessageId },
       { c with nextMessageId := c.nextMessageId + 1 })
    else (message, c)
  let (c, effs) :=
    if c.websocketConnected then
      (c, [Effect.wireSend message])
    else
      ({ c with waitingMessages := c.waitingMessages ++ [message] }, [])
  match cb with
  | some tag =>
    ({ c with waitingCallbacks := setKey c.waitingCallbacks (msgKey message) tag }, effs)
  | none => (c, effs)

/-- `cmd(cmd, params, cb)` (lines 401-406). -/
def cmd (c : Client) (name : String) (params : JSVal) (cb : Option Nat) :
    Client × List Effect :=
  _send c { cmd := name, params := some params } cb

/-- Settlement of the promise returned by `cmdp`. -/
inductive Settle where
  | resolve (v : JSVal)
  | reject (e : JSVal)

/-- The callback installed by `cmdp` (lines 424-430): reject with
`response.error` when `response && response.error` is truthy, otherwise
resolve with `response`. -/
def cmdpSettle (response : JSVal) : Settle :=
  if truthy response && truthy (getField response "error") then
    Settle.reject (getField response "error")
  else
    Settle.resolve response

/-- `cmdp(cmd, params)` (lines 422-432): sends the command with the
promise-settling callback, identified here by the opaque tag `tag`. -/
def cmdp (c : Client) (name : String) (params : JSVal) (tag : Nat) :
    Client × List Effect :=
  cmd c name params (some tag)

/-- `response(to, result)` (lines 442-448). -/
def response (c : Client) (toVal : JSVal) (result : JSVal) : Client × List Effect :=
  _send c { cmd := "response", toVal := some toVal, result := some result } none

/-- The proxy `get` trap's returned function (lines 60-75): no arguments
forwards to `cmdp` with its default `{}` parameters; a single non-null
object argument is passed as keyword parameters; otherwise the argument
list itself is the parameter array. -/
def proxyCall (c : Client) (name : String) (arguments : List JSVal) (tag : Nat) :
    Client × List Effect :=
  if arguments.length == 0 then
    cmdp c name (JSVal.obj []) tag
  else if arguments.length == 1 && isObjectArg (arguments.headD JSVal.undefined) then
    cmdp c name (arguments.headD JSVal.undefined) tag
  else
    cmdp c name (JSVal.arr arguments) tag

/-- The body of the `"response"` arm of `_onRequest` (lines 166-169):
given the key `n` from the frame's `to` field and the correlation
entry found for it (if any), invoke and delete the entry, or do
nothing when there is none. -/
def resolveEntry (c : Client) (n : Int) (entry : Option Nat) (resV : JSVal) :
    Client × List Effect :=
  match entry with
  | some tag =>
    ({ c with waitingCallbacks := eraseKey c.waitingCallbacks n },
     [Effect.invokeCallback n tag resV])
  | none => (c, [])

/-- `_onRequest(event)` (lines 161-175): a `"response"` frame resolves
and removes the matching correlation entry, or is dropped when there is
none (a non-numeric `to` finds no entry, since entries are keyed by
assigned numeric identifiers); a `"ping"` frame is answered with a
`"pong"` response; anything else is forwarded to the user-level
`onRequest` hook. -/
def _onRequest (c : Client) (message : JSVal) : Client × List Effect :=
  if isStr (getField message "cmd") "response" then
    match getField message "to" with
    | JSVal.num n =>
      resolveEntry c n (c.waitingCallbacks.lookup n) (getField message "result")
    | _ => (c, [])
  else if isStr (getField message "cmd") "ping" then
    response c (getField message "id") (JSVal.str "pong")
  else
    (c, [Effect.appRequest (getField message "cmd") message])

/-- The `forEach` body of `_onOpenWebsocket` (lines 194-199): walk the
queue in order, transmit every entry not yet marked processed and mark
it; return the updated queue and the transmitted frames in order. -/
def flushQueue : List Message → List Message × List Effect
  | [] => ([], [])
  | m :: rest =>
    let (rest', effs) := flushQueue rest
    if m.processed then
      (m :: rest', effs)
    else
      ({ m with processed := true } :: rest', Effect.wireSend m :: effs)

/-- `_onOpenWebsocket(event)` (lines 191-202): mark the socket
connected, flush the waiting queue, then call the user open hook. -/
def _onOpenWebsocket (c : Client) : Client × List Effect :=
  let c := { c with websocketConnected := true }
  let (queue, effs) := flushQueue c.waitingMessages
  ({ c with waitingMessages := queue }, effs ++ [Effect.openHook])

/-- `_onCloseWebsocket(event)` (lines 235-251): mark the socket
disconnected, call the user close hook, then schedule a reconnect unless
`reconnect.attempts` is `0` or the (never-incremented) attempt counter
exceeds a positive limit. -/
def _onCloseWebsocket (c : Client) : Client × List Effect :=
  let c := { c with websocketConnected := false }
  if c.reconnectAttempts == 0 then
    (c, [Effect.closeHook])
  else if c.reconnectAttempts != -1 && c.nextAttemptId > c.reconnectAttempts then
    (c, [Effect.closeHook])
  else
    (c, [Effect.closeHook, Effect.scheduleReconnect c.reconnectDelay])

/-- The class-level `ZeroFrame.constructorOptions` object with its
documented default values (lines 474-492). -/
def constructorOptions : JSVal :=
  JSVal.obj [
    ("multiuser", JSVal.obj [("masterAddress", JSVal.null), ("masterSeed", JSVal.null)]),
    ("instance", JSVal.obj [("host", JSVal.str "127.0.0.1"), ("port", JSVal.num 43110),
                            ("secure", JSVal.bool false)]),
    ("show", JSVal.obj [("log", JSVal.bool false), ("error", JSVal.bool false)]),
    ("reconnect", JSVal.obj [("attempts", JSVal.num (-1)), ("delay", JSVal.num 5000)])]

/-- The session state fields initialised by the constructor (lines
41-45) from the merged options. -/
def mkClient (opts : JSVal) : Client :=
  { websocketConnected := false
    waitingMessages := []
    waitingCallbacks := []
    nextMessageId := 1
    nextAttemptId := 1
    reconnectAttempts := jsInt (getField (getField opts "reconnect") "attempts")
    reconnectDelay := jsInt (getField (getField opts "reconnect") "delay") }

/-- The constructor (lines 21-78) up to the call of `_connect`: merge
the user options into the shared class-level defaults object (mutating
it — line 22 passes `ZeroFrame.constructorOptions` itself as the merge
target), then throw when `site` is falsy. The first component is the
post-construction value of the shared defaults object; `Except.ok`
means the constructor reached the connection step (`this._connect()`),
`Except.error` models the thrown `Error`'s message. -/
def construct (defaults site userOptions : JSVal) : JSVal × Except String Client :=
  let merged := recursiveAssign defaults userOptions
  (merged,
   if truthy site then Except.ok (mkClient merged)
   else Except.error "Site address is not specified")

/-- A freshly constructed client with the given reconnect policy. -/
def initClient (attempts delay : Int) : Client :=
  { websocketConnected := false
    waitingMessages := []
    waitingCallbacks := []
    nextMessageId := 1
    nextAttemptId := 1
    reconnectAttempts := attempts
    reconnectDelay := delay }

/-- Run a sequence of `_send` calls, accumulating effects. -/
def sendAll (c : Client) : List (Message × Option Nat) → Client × List Effect
  | [] => (c, [])
  | (m, cb) :: rest =>
    let (c1, e1) := _send c m cb
    let (c2, e2) := sendAll c1 rest
    (c2, e1 ++ e2)

/-- Run the inbound dispatcher over a sequence of frames. -/
def dispatchAll (c : Client) : List JSVal → Client × List Effect
  | [] => (c, [])
  | f :: rest =>
    let (c1, e1) := _onRequest c f
    let (c2, e2) := dispatchAll c1 rest
    (c2, e1 ++ e2)

/-- The wire-visible payload of a message (everything but the assigned
identifier and the processed flag). -/
def payload (m : Message) : String × Option JSVal × Option JSVal × Option JSVal :=
  (m.cmd, m.params, m.toVal, m.result)

/-- Whether an effect is a socket transmission. -/
def isWireEff : Effect → Bool
  | Effect.wireSend _ => true
  | _ => false

/-- Whether an effect invokes the callback registered under key `k`. -/
def isInvokeFor (k : Int) : Effect → Bool
  | Effect.invokeCallback j _ _ => j == k
  | _ => false

/-- Number of callback invocations for key `k` in an effect list. -/
def invokeCount (k : Int) (effs : List Effect) : Nat :=
  (effs.filter (isInvokeFor k)).length

/-- The promise settlements produced by an effect list, via the `cmdp`
callback semantics. -/
def settleEvents (effs : List Effect) : List (Nat × Settle) :=
  effs.filterMap (fun e =>
    match e with
    | Effect.invokeCallback _ tag r => some (tag, cmdpSettle r)
    | _ => none)

/-! ## Association-table lemmas -/

theorem lookup_eraseKey_self (t : List (Int × Nat)) (k : Int) :
    (eraseKey t k).lookup k = none := by
  induction t with
  | nil => rfl
  | cons p rest ih =>
    by_cases h : p.1 = k
    · simpa [eraseKey, h] using ih
    · have hpk : (p.1 == k) = false := beq_eq_false_iff_ne.mpr h
      have hkp : (k == p.1) = false := beq_eq_false_iff_ne.mpr fun hh => h hh.symm
      simp [eraseKey, hpk, List.lookup, hkp, ih]

theorem lookup_eraseKey_ne (t : List (Int × Nat)) (j k : Int) (h : j ≠ k) :
    (eraseKey t j).lookup k = t.lookup k := by
  induction t with
  | nil => rfl
  | cons p rest ih =>
    by_cases hp : p.1 = j
    · have hkp : (k == p.1) = false :=
        beq_eq_false_iff_ne.mpr fun hh => h ((hp ▸ hh).symm)
      have hkj : (k == j) = false := beq_eq_false_iff_ne.mpr (Ne.symm h)
      simp [eraseKey, hp, List.lookup, hkp, hkj, ih]
    · have hpj : (p.1 == j) = false := beq_eq_false_iff_ne.mpr hp
      cases hkp : (k == p.1) <;> simp [eraseKey, hpj, List.lookup, hkp, ih]

theorem lookup_setKey_self (t : List (Int × Nat)) (k : Int) (v : Nat) :
    (setKey t k v).lookup k = some v := by
  simp [setKey, List.lookup]

theorem lookup_eraseKey_setKey (t : List (Int × Nat)) (k : Int) (v : Nat) :
    (eraseKey (setKey t k v) k).lookup k = none := by
  have h : eraseKey (setKey t k v) k = eraseKey (eraseKey t k) k := by
    simp [setKey, eraseKey]
  rw [h]
  exact lookup_eraseKey_self _ _

/-! ## Send-path lemmas -/

theorem invokeCount_append (k : Int) (a b : List Effect) :
    invokeCount k (a ++ b) = invokeCount k a + invokeCount k b := by
  simp [invokeCount, List.filter_append]

theorem _send_none_callbacks (c : Client) (m : Message) :
    (_send c m none).1.waitingCallbacks = c.waitingCallbacks := by
  unfold _send
  by_cases h1 : idMissing m.id <;> by_cases h2 : c.websocketConnected <;> simp [h1, h2]

theorem _send_no_invoke (c : Client) (m : Message) (cb : Option Nat) (k : Int) :
    invokeCount k (_send c m cb).2 = 0 := by
  unfold _send
  rcases cb with _ | tag <;>
    by_cases h1 : idMissing m.id <;> by_cases h2 : c.websocketConnected <;>
    simp [h1, h2, invokeCount, isInvokeFor]

theorem _send_disconnected (c : Client) (m : Message) (cb : Option Nat)
    (h : c.websocketConnected = false) :
    (_send c m cb).1.websocketConnected = false
    ∧ (_send c m cb).2 = []
    ∧ (_send c m cb).1.waitingMessages.map payload
        = c.waitingMessages.map payload ++ [payload m]
    ∧ (_send c m cb).1.waitingMessages.map Message.processed
        = c.waitingMessages.map Message.processed ++ [m.processed] := by
  unfold _send
  rcases cb with _ | tag <;> by_cases h1 : idMissing m.id <;>
    simp [h1, h, payload]

theorem _send_disconnected_queue (c : Client) (m : Message) (cb : Option Nat)
    (h : c.websocketConnected = false) (hid : m.id = none) :
    (_send c m cb).1.waitingMessages
      = c.waitingMessages ++ [{ m with id := some c.nextMessageId }]
    ∧ (_send c m cb).1.nextMessageId = c.nextMessageId + 1 := by
  unfold _send
  rcases cb with _ | tag <;> simp [hid, idMissing, h]

theorem sendAll_disconnected (msgs : List (Message × Option Nat)) (c : Client)
    (h : c.websocketConnected = false) :
    (sendAll c msgs).1.websocketConnected = false
    ∧ (sendAll c msgs).2 = []
    ∧ (sendAll c msgs).1.waitingMessages.map payload
        = c.waitingMessages.map payload ++ msgs.map (fun p => payload p.1)
    ∧ (sendAll c msgs).1.waitingMessages.map Message.processed
        = c.waitingMessages.map Message.processed ++ msgs.map (fun p => p.1.processed) := by
  induction msgs generalizing c with
  | nil => simp [sendAll, h]
  | cons p rest ih =>
    obtain ⟨m, cb⟩ := p
    obtain ⟨h1, h2, h3, h4⟩ := _send_disconnected c m cb h
    obtain ⟨ih1, ih2, ih3, ih4⟩ := ih (_send c m cb).1 h1
    refine ⟨ih1, ?_, ?_, ?_⟩
    · simp [sendAll, h2, ih2]
    · simp [sendAll, ih3, h3]
    · simp [sendAll, ih4, h4]

theorem sendAll_processed_false (msgs : List (Message × Option Nat)) (c : Client)
    (h : c.websocketConnected = false)
    (hq : ∀ m ∈ c.waitingMessages, m.processed = false)
    (hm : ∀ p ∈ msgs, p.1.processed = false) :
    ∀ x ∈ (sendAll c msgs).1.waitingMessages, x.processed = false := by
  intro x hx
  obtain ⟨_, _, _, h4⟩ := sendAll_disconnected msgs c h
  have hmem : x.processed ∈ (sendAll c msgs).1.waitingMessages.map Message.processed :=
    List.mem_map_of_mem _ hx
  rw [h4] at hmem
  rcases List.mem_append.mp hmem with hh | hh
  · obtain ⟨y, hy, he⟩ := List.mem_map.mp hh
    rw [← he]
    exact hq y hy
  · obtain ⟨q, hq2, he⟩ := List.mem_map.mp hh
    rw [← he]
    exact hm q hq2

/-! ## Open-handler lemmas -/

theorem flushQueue_all_unprocessed (q : List Message)
    (h : ∀ m ∈ q, m.processed = false) :
    flushQueue q = (q.map (fun m => { m with processed := true }), q.map Effect.wireSend) := by
  induction q with
  | nil => rfl
  | cons m rest ih =>
    have hm := h m (List.mem_cons_self m rest)
    have hrest := ih (fun x hx => h x (List.mem_cons_of_mem m hx))
    simp [flushQueue, hrest, hm]

theorem flushQueue_all_processed (q : List Message)
    (h : ∀ m ∈ q, m.processed = true) :
    flushQueue q = (q, []) := by
  induction q with
  | nil => rfl
  | cons m rest ih =>
    have hm := h m (List.mem_cons_self m rest)
    have hrest := ih (fun x hx => h x (List.mem_cons_of_mem m hx))
    simp [flushQueue, hrest, hm]

theorem onOpen_flush_unprocessed (c : Client)
    (h : ∀ m ∈ c.waitingMessages, m.processed = false) :
    (_onOpenWebsocket c).2 = c.waitingMessages.map Effect.wireSend ++ [Effect.openHook]
    ∧ (_onOpenWebsocket c).1.waitingMessages
        = c.waitingMessages.map (fun m => { m with processed := true })
    ∧ (_onOpenWebsocket c).1.websocketConnected = true := by
  simp [_onOpenWebsocket, flushQueue_all_unprocessed _ h]

theorem onOpen_all_processed (c : Client)
    (h : ∀ m ∈ c.waitingMessages, m.processed = true) :
    (_onOpenWebsocket c).2 = [Effect.openHook] := by
  simp [_onOpenWebsocket, flushQueue_all_processed _ h]

/-- A concrete pair of commands used to instantiate the queue
theorems at a specific input. -/
def demoMsgs : List (Message × Option Nat) :=
  [({ cmd := "siteInfo", params := some (JSVal.obj []) }, none),
   ({ cmd := "serverInfo", params := some (JSVal.obj []) }, none)]

/-! ## C1: pre-open sends are flushed in order, exactly once -/

/-- C1: for every sequence of `_send` calls issued while the transport
is not open, nothing is transmitted at send time; on transport open the
handler transmits exactly the waiting queue, in enqueue order (the old
queue followed by the new sends, payloads preserved), marking each
entry processed; and a repeated open event transmits nothing again. -/
theorem queued_sends_flushed_in_order_exactly_once (c0 : Client)
    (msgs : List (Message × Option Nat))
    (hconn : c0.websocketConnected = false)
    (hq : ∀ m ∈ c0.waitingMessages, m.processed = false)
    (hm : ∀ p ∈ msgs, p.1.processed = false) :
    (sendAll c0 msgs).2 = []
    ∧ (sendAll c0 msgs).1.waitingMessages.map payload
        = c0.waitingMessages.map payload ++ msgs.map (fun p => payload p.1)
    ∧ (_onOpenWebsocket (sendAll c0 msgs).1).2
        = (sendAll c0 msgs).1.waitingMessages.map Effect.wireSend ++ [Effect.openHook]
    ∧ (_onOpenWebsocket (_onOpenWebsocket (sendAll c0 msgs).1).1).2 = [Effect.openHook] := by
  obtain ⟨h1, h2, h3, h4⟩ := sendAll_disconnected msgs c0 hconn
  have hpf := sendAll_processed_false msgs c0 hconn hq hm
  obtain ⟨ho1, ho2, _⟩ := onOpen_flush_unprocessed _ hpf
  refine ⟨h2, h3, ho1, ?_⟩
  apply onOpen_all_processed
  rw [ho2]
  intro x hx
  obtain ⟨y, hy, he⟩ := List.mem_map.mp hx
  rw [← he]

theorem queued_sends_flushed_witness :
    (sendAll (initClient (-1) 5000) demoMsgs).2 = []
    ∧ (sendAll (initClient (-1) 5000) demoMsgs).1.waitingMessages.map payload
        = (initClient (-1) 5000).waitingMessages.map payload
          ++ demoMsgs.map (fun p => payload p.1)
    ∧ (_onOpenWebsocket (sendAll (initClient (-1) 5000) demoMsgs).1).2
        = (sendAll (initClient (-1) 5000) demoMsgs).1.waitingMessages.map
            Effect.wireSend ++ [Effect.openHook]
    ∧ (_onOpenWebsocket (_onOpenWebsocket
          (sendAll (initClient (-1) 5000) demoMsgs).1).1).2 = [Effect.openHook] :=
  queued_sends_flushed_in_order_exactly_once (initClient (-1) 5000) demoMsgs
    rfl (by simp [initClient]) (by simp [demoMsgs])

/-! ## C3: at most one callback invocation per identifier -/

theorem resolveEntry_invoke_step (c : Client) (n : Int) (entry : Option Nat)
    (resV : JSVal) (k : Int) (hl : c.waitingCallbacks.lookup n = entry) :
    invokeCount k (resolveEntry c n entry resV).2
      + (if (resolveEntry c n entry resV).1.waitingCallbacks.lookup k = none then 0 else 1)
      ≤ (if c.waitingCallbacks.lookup k = none then 0 else 1) := by
  cases entry with
  | some tag =>
    by_cases hk : n = k
    · subst hk
      simp [resolveEntry, invokeCount, isInvokeFor, lookup_eraseKey_self, hl]
    · have he := lookup_eraseKey_ne c.waitingCallbacks n k hk
      simp [resolveEntry, invokeCount, isInvokeFor, hl, beq_eq_false_iff_ne.mpr hk]
      rw [he]
  | none => simp [resolveEntry, invokeCount]

theorem onRequest_invoke_step (c : Client) (f : JSVal) (k : Int) :
    invokeCount k (_onRequest c f).2
      + (if (_onRequest c f).1.waitingCallbacks.lookup k = none then 0 else 1)
      ≤ (if c.waitingCallbacks.lookup k = none then 0 else 1) := by
  unfold _onRequest
  cases hr : isStr (getField f "cmd") "response" with
  | true =>
    simp only [hr, if_true]
    split
    case _ n heq =>
      exact resolveEntry_invoke_step c n (c.waitingCallbacks.lookup n)
        (getField f "result") k rfl
    case _ => simp [invokeCount]
  | false =>
    cases hp : isStr (getField f "cmd") "ping" with
    | true =>
      simp only [hr, hp, response, Bool.false_eq_true, if_false, if_true]
      rw [_send_no_invoke, _send_none_callbacks]
      simp
    | false => simp [hr, hp, invokeCount, isInvokeFor]

theorem dispatchAll_invoke_le (fs : List JSVal) (c : Client) (k : Int) :
    invokeCount k (dispatchAll c fs).2
      ≤ (if c.waitingCallbacks.lookup k = none then 0 else 1) := by
  induction fs generalizing c with
  | nil => simp [dispatchAll, invokeCount]
  | cons f rest ih =>
    have hstep := onRequest_invoke_step c f k
    have hrest := ih (_onRequest c f).1
    simp only [dispatchAll]
    rw [invokeCount_append]
    omega

/-- C3: across any sequence of inbound frames, the completion callback
registered under a given identifier is invoked at most once, and an
identifier with no registered entry never produces an invocation. -/
theorem response_callback_at_most_once (c0 : Client) (frames : List JSVal) (k : Int) :
    invokeCount k (dispatchAll c0 frames).2 ≤ 1
    ∧ invokeCount k (dispatchAll c0 frames).2
        ≤ (if c0.waitingCallbacks.lookup k = none then 0 else 1) := by
  have h := dispatchAll_invoke_le frames c0 k
  constructor
  · by_cases hl : c0.waitingCallbacks.lookup k = none <;> simp [hl] at h ⊢ <;> omega
  · exact h


/-! ## C4: ping frames are answered with exactly one pong response -/

theorem resolveEntry_no_wire (c : Client) (n : Int) (entry : Option Nat) (resV : JSVal) :
    (resolveEntry c n entry resV).2.filter isWireEff = []
    ∧ (resolveEntry c n entry resV).1.waitingMessages = c.waitingMessages := by
  cases entry <;> simp [resolveEntry, isWireEff]

theorem onRequest_nonping_no_send (c : Client) (g : JSVal)
    (hg : isStr (getField g "cmd") "ping" = false) :
    (_onRequest c g).2.filter isWireEff = []
    ∧ (_onRequest c g).1.waitingMessages = c.waitingMessages := by
  unfold _onRequest
  cases hr : isStr (getField g "cmd") "response" with
  | true =>
    simp only [hr, if_true]
    split
    case _ n heq => exact resolveEntry_no_wire c n _ _
    case _ => simp [isWireEff]
  | false => simp [hr, hg, isWireEff]

/-- C4: a `ping` frame with identifier `n` produces exactly one outbound
message through the send path, a `response` addressed to `n` with result
`"pong"` and a freshly assigned identifier, and nothing else (in
particular no application-request hook); a frame whose `cmd` is not
`ping` never transmits or queues any outbound message. -/
theorem ping_frame_single_pong (c0 : Client) (f g : JSVal) (n : Int)
    (hconn : c0.websocketConnected = true)
    (hcmd : getField f "cmd" = JSVal.str "ping")
    (hid : getField f "id" = JSVal.num n)
    (hg : isStr (getField g "cmd") "ping" = false) :
    _onRequest c0 f
      = ({ c0 with nextMessageId := c0.nextMessageId + 1 },
         [Effect.wireSend { id := some c0.nextMessageId, cmd := "response",
                            params := none, toVal := some (JSVal.num n),
                            result := some (JSVal.str "pong"), processed := false }])
    ∧ (_onRequest c0 g).2.filter isWireEff = []
    ∧ (_onRequest c0 g).1.waitingMessages = c0.waitingMessages := by
  obtain ⟨hg1, hg2⟩ := onRequest_nonping_no_send c0 g hg
  refine ⟨?_, hg1, hg2⟩
  unfold _onRequest
  simp [hcmd, isStr, response, _send, idMissing, hid, hconn]


/-- A connected client used to instantiate the dispatcher theorems. -/
def connClient : Client := { initClient (-1) 5000 with websocketConnected := true }

theorem ping_frame_single_pong_witness :
    connClient.websocketConnected = true
    ∧ getField (JSVal.obj [("cmd", JSVal.str "ping"), ("id", JSVal.num 7)]) "cmd"
        = JSVal.str "ping"
    ∧ getField (JSVal.obj [("cmd", JSVal.str "ping"), ("id", JSVal.num 7)]) "id"
        = JSVal.num 7
    ∧ isStr (getField (JSVal.obj [("cmd", JSVal.str "announcerInfo"),
        ("id", JSVal.num 3)]) "cmd") "ping" = false
    ∧ (_onRequest connClient (JSVal.obj [("cmd", JSVal.str "ping"), ("id", JSVal.num 7)])
        = ({ connClient with nextMessageId := connClient.nextMessageId + 1 },
           [Effect.wireSend { id := some connClient.nextMessageId,
                              cmd := "response", params := none,
                              toVal := some (JSVal.num 7),
                              result := some (JSVal.str "pong"),
                              processed := false }])
       ∧ (_onRequest connClient (JSVal.obj [("cmd", JSVal.str "announcerInfo"),
            ("id", JSVal.num 3)])).2.filter isWireEff = []
       ∧ (_onRequest connClient (JSVal.obj [("cmd", JSVal.str "announcerInfo"),
            ("id", JSVal.num 3)])).1.waitingMessages = connClient.waitingMessages) :=
  ⟨rfl, rfl, rfl, rfl,
   ping_frame_single_pong connClient
     (JSVal.obj [("cmd", JSVal.str "ping"), ("id", JSVal.num 7)])
     (JSVal.obj [("cmd", JSVal.str "announcerInfo"), ("id", JSVal.num 3)])
     7 rfl rfl rfl rfl⟩

/-! ## C5: promise settlement for a round-tripped command -/

def respFrame (k : Int) (R : JSVal) : JSVal :=
  JSVal.obj [("cmd", JSVal.str "response"), ("to", JSVal.num k), ("result", R)]

theorem onRequest_respFrame (c : Client) (k : Int) (R : JSVal) :
    _onRequest c (respFrame k R) = resolveEntry c k (c.waitingCallbacks.lookup k) R := by
  unfold _onRequest
  simp [respFrame, getField, List.lookup, isStr]

theorem cmdp_registers (c0 : Client) (name : String) (params : JSVal) (tag : Nat) :
    (cmdp c0 name params tag).1.waitingCallbacks
      = setKey c0.waitingCallbacks c0.nextMessageId tag := by
  unfold cmdp cmd _send
  by_cases h2 : c0.websocketConnected <;> simp [idMissing, h2, msgKey]

/-- C5 (amended): a command sent through `cmdp` with generated
identifier `k = nextMessageId`, answered later by a frame
`{cmd: "response", to: k, result: R}`, settles the caller's promise
exactly once — rejected with `R.error` when `R` and its `error` field
are both truthy, resolved with exactly `R` otherwise — and a duplicate
of the same response frame produces no further effect. -/
theorem cmdp_roundtrip_settles_once (c0 : Client) (name : String)
    (params R : JSVal) (tag : Nat) :
    settleEvents (_onRequest (cmdp c0 name params tag).1
        (respFrame c0.nextMessageId R)).2
      = [(tag, cmdpSettle R)]
    ∧ (_onRequest (_onRequest (cmdp c0 name params tag).1
          (respFrame c0.nextMessageId R)).1
        (respFrame c0.nextMessageId R)).2 = []
    ∧ cmdpSettle R
        = (if truthy R && truthy (getField R "error") then
             Settle.reject (getField R "error")
           else Settle.resolve R) := by
  have hreg := cmdp_registers c0 name params tag
  rw [onRequest_respFrame, hreg, lookup_setKey_self]
  refine ⟨by simp [resolveEntry, settleEvents], ?_, rfl⟩
  rw [onRequest_respFrame]
  have hwc : (resolveEntry (cmdp c0 name params tag).1 c0.nextMessageId
      (some tag) R).1.waitingCallbacks
        = eraseKey (cmdp c0 name params tag).1.waitingCallbacks c0.nextMessageId := by
    simp [resolveEntry]
  rw [hwc, hreg, lookup_eraseKey_setKey]
  simp [resolveEntry]

/-- C5 counterexample: the result `{error: false}` is truthy and carries
an `error` field, yet the round-tripped command's promise is resolved
with it instead of rejected, because the `cmdp` callback additionally
requires the `error` field's value to be truthy. -/
theorem cmdp_error_field_claim_counterexample :
    truthy (JSVal.obj [("error", JSVal.bool false)]) = true
    ∧ getField (JSVal.obj [("error", JSVal.bool false)]) "error" = JSVal.bool false
    ∧ cmdpSettle (JSVal.obj [("error", JSVal.bool false)])
        = Settle.resolve (JSVal.obj [("error", JSVal.bool false)])
    ∧ Settle.resolve (JSVal.obj [("error", JSVal.bool false)])
        ≠ Settle.reject (getField (JSVal.obj [("error", JSVal.bool false)]) "error") :=
  ⟨rfl, rfl, rfl, fun h => nomatch h⟩

/-! ## C6: sequential identifier assignment -/

theorem range_map_shift (k : Int) (n : Nat) :
    (List.range (n + 1)).map (fun (i : Nat) => some (k + (i : Int)))
      = some k :: (List.range n).map (fun (i : Nat) => some ((k + 1) + (i : Int))) := by
  rw [List.range_succ_eq_map]
  simp only [List.map_cons, List.map_map, Nat.cast_zero, add_zero, List.cons.injEq]
  refine ⟨trivial, ?_⟩
  apply List.map_congr_left
  intro i _
  show some (k + ((i + 1 : Nat) : Int)) = some ((k + 1) + (i : Int))
  congr 1
  push_cast
  ring

theorem sendAll_assigns_ids (msgs : List (Message × Option Nat)) (c : Client)
    (h : c.websocketConnected = false)
    (hid : ∀ p ∈ msgs, p.1.id = none) :
    (sendAll c msgs).1.nextMessageId = c.nextMessageId + msgs.length
    ∧ ∃ X, (sendAll c msgs).1.waitingMessages = c.waitingMessages ++ X
        ∧ X.map Message.id
            = (List.range msgs.length).map
                (fun (i : Nat) => some (c.nextMessageId + (i : Int))) := by
  induction msgs generalizing c with
  | nil => exact ⟨by simp [sendAll], [], by simp [sendAll], by simp⟩
  | cons p rest ih =>
    obtain ⟨m, cb⟩ := p
    have hm0 : m.id = none := hid (m, cb) (List.mem_cons_self _ _)
    obtain ⟨hq1, hq2⟩ := _send_disconnected_queue c m cb h hm0
    have hconn1 : (_send c m cb).1.websocketConnected = false :=
      (_send_disconnected c m cb h).1
    obtain ⟨ihn, X, ihq, ihids⟩ :=
      ih (_send c m cb).1 hconn1 (fun p hp => hid p (List.mem_cons_of_mem _ hp))
    constructor
    · simp only [sendAll]
      rw [ihn, hq2]
      simp
      ring
    · refine ⟨{ m with id := some c.nextMessageId } :: X, ?_, ?_⟩
      · simp only [sendAll]
        rw [ihq, hq1]
        simp
      · simp only [List.map_cons, ihids, hq2, List.length_cons]
        rw [range_map_shift]

/-- C6: automatically assigned identifiers are sequential: after any
sequence of sends of messages without identifiers while disconnected,
the counter has advanced by the number of sends and the newly queued
messages carry the identifiers `nextMessageId, nextMessageId + 1, ...`
in order (so a fresh client numbers them `1, 2, ...`); a message with a
preset non-zero identifier keeps it and does not advance the counter. -/
theorem auto_ids_sequential (c0 : Client) (msgs : List (Message × Option Nat))
    (m : Message) (cb : Option Nat) (j : Int)
    (hconn : c0.websocketConnected = false)
    (hid : ∀ p ∈ msgs, p.1.id = none)
    (hj : m.id = some j) (hj0 : j ≠ 0) :
    (sendAll c0 msgs).1.nextMessageId = c0.nextMessageId + msgs.length
    ∧ ((sendAll c0 msgs).1.waitingMessages.drop c0.waitingMessages.length).map Message.id
        = (List.range msgs.length).map
            (fun (i : Nat) => some (c0.nextMessageId + (i : Int)))
    ∧ (_send c0 m cb).1.nextMessageId = c0.nextMessageId
    ∧ (_send c0 m cb).1.waitingMessages = c0.waitingMessages ++ [m] := by
  obtain ⟨hn, X, hqe, hids⟩ := sendAll_assigns_ids msgs c0 hconn hid
  have hmiss : idMissing m.id = false := by simp [hj, idMissing, hj0]
  refine ⟨hn, ?_, ?_, ?_⟩
  · rw [hqe, List.drop_left]
    exact hids
  · unfold _send
    rcases cb with _ | tag <;> simp [hmiss, hconn]
  · unfold _send
    rcases cb with _ | tag <;> simp [hmiss, hconn]

theorem auto_ids_sequential_witness :
    (sendAll (initClient (-1) 5000) demoMsgs).1.nextMessageId
        = (initClient (-1) 5000).nextMessageId + demoMsgs.length
    ∧ ((sendAll (initClient (-1) 5000) demoMsgs).1.waitingMessages.drop
          (initClient (-1) 5000).waitingMessages.length).map Message.id
        = (List.range demoMsgs.length).map
            (fun (i : Nat) => some ((initClient (-1) 5000).nextMessageId + (i : Int)))
    ∧ (_send (initClient (-1) 5000) { id := some 7, cmd := "presetCmd" } none).1.nextMessageId
        = (initClient (-1) 5000).nextMessageId
    ∧ (_send (initClient (-1) 5000) { id := some 7, cmd := "presetCmd" } none).1.waitingMessages
        = (initClient (-1) 5000).waitingMessages ++ [{ id := some 7, cmd := "presetCmd" }] :=
  auto_ids_sequential (initClient (-1) 5000) demoMsgs
    { id := some 7, cmd := "presetCmd" } none 7
    rfl (by simp [demoMsgs]) rfl (by decide)

/-! ## C2 and C7: reconnect policy -/

/-- C2: the code does not enforce the `reconnect.attempts = N > 0` cap.
With `attempts = 1`, the first closure schedules a reconnect, a second
closure after the re-opened socket closes again schedules a second
reconnect, and the attempt counter still holds its initial value `1`
(no code path ever increments it), so reconnection never stops. -/
theorem reconnect_attempt_limit_not_enforced :
    (_onCloseWebsocket ((_onOpenWebsocket (initClient 1 5000)).1)).2
        = [Effect.closeHook, Effect.scheduleReconnect 5000]
    ∧ (_onCloseWebsocket ((_onOpenWebsocket
          (_onCloseWebsocket ((_onOpenWebsocket (initClient 1 5000)).1)).1).1)).2
        = [Effect.closeHook, Effect.scheduleReconnect 5000]
    ∧ (_onCloseWebsocket ((_onOpenWebsocket
          (_onCloseWebsocket ((_onOpenWebsocket (initClient 1 5000)).1)).1).1)).1.nextAttemptId
        = 1 :=
  ⟨rfl, rfl, rfl⟩

/-- C7: with `reconnect.attempts = 0` the close handler marks the
connection not-open, fires the close hook and returns without
scheduling any reconnection. -/
theorem reconnect_disabled_never_reconnects (c : Client)
    (h : c.reconnectAttempts = 0) :
    _onCloseWebsocket c = ({ c with websocketConnected := false }, [Effect.closeHook]) := by
  simp [_onCloseWebsocket, h]

theorem reconnect_disabled_never_reconnects_witness :
    (initClient 0 5000).reconnectAttempts = 0
    ∧ _onCloseWebsocket (initClient 0 5000)
        = ({ initClient 0 5000 with websocketConnected := false }, [Effect.closeHook]) :=
  ⟨rfl, reconnect_disabled_never_reconnects (initClient 0 5000) rfl⟩

/-! ## C8: proxy argument shaping -/

/-- C8: the proxy surface shapes arguments into parameters: a nullary
call sends empty parameters, a unary call with a non-null object sends
it as keyword parameters, and a call with two or more arguments sends
the positional argument array; each case is exactly the corresponding
`cmdp` call, hence yields the same promise contract. -/
theorem proxy_argument_shaping (c : Client) (name : String) (obj1 b1 b2 : JSVal)
    (rest : List JSVal) (tag : Nat) (h : isObjectArg obj1 = true) :
    proxyCall c name [] tag = cmdp c name (JSVal.obj []) tag
    ∧ proxyCall c name [obj1] tag = cmdp c name obj1 tag
    ∧ proxyCall c name (b1 :: b2 :: rest) tag
        = cmdp c name (JSVal.arr (b1 :: b2 :: rest)) tag := by
  refine ⟨rfl, ?_, ?_⟩
  · simp [proxyCall, h]
  · simp [proxyCall]

theorem proxy_argument_shaping_witness :
    isObjectArg (JSVal.obj [("a", JSVal.num 1)]) = true
    ∧ (proxyCall (initClient (-1) 5000) "fileGet" [] 0
         = cmdp (initClient (-1) 5000) "fileGet" (JSVal.obj []) 0
       ∧ proxyCall (initClient (-1) 5000) "fileGet" [JSVal.obj [("a", JSVal.num 1)]] 0
         = cmdp (initClient (-1) 5000) "fileGet" (JSVal.obj [("a", JSVal.num 1)]) 0
       ∧ proxyCall (initClient (-1) 5000) "fileGet" [JSVal.num 1, JSVal.num 2] 0
         = cmdp (initClient (-1) 5000) "fileGet" (JSVal.arr [JSVal.num 1, JSVal.num 2]) 0) :=
  ⟨rfl, proxy_argument_shaping (initClient (-1) 5000) "fileGet"
      (JSVal.obj [("a", JSVal.num 1)]) (JSVal.num 1) (JSVal.num 2) [] 0 rfl⟩

/-! ## C9 and C10: constructor behaviour -/

/-- The value of the shared defaults object after a construction that
overrides `reconnect.attempts` with `5`. -/
def mutatedOptions : JSVal := JSVal.obj [
    ("multiuser", JSVal.obj [("masterAddress", JSVal.null), ("masterSeed", JSVal.null)]),
    ("instance", JSVal.obj [("host", JSVal.str "127.0.0.1"), ("port", JSVal.num 43110),
                            ("secure", JSVal.bool false)]),
    ("show", JSVal.obj [("log", JSVal.bool false), ("error", JSVal.bool false)]),
    ("reconnect", JSVal.obj [("attempts", JSVal.num 5), ("delay", JSVal.num 5000)])]

/-- C9: constructing a client with option overrides mutates the shared
class-level defaults object in place, so a second client constructed
afterwards with empty options observes the first client's override
(`reconnect.attempts = 5`) instead of the documented default (`-1`). -/
theorem constructor_mutates_shared_defaults :
    (match (construct (construct constructorOptions (JSVal.str "1FirstSite")
          (JSVal.obj [("reconnect", JSVal.obj [("attempts", JSVal.num 5)])])).1
          (JSVal.str "1SecondSite") (JSVal.obj [])).2 with
     | Except.ok c => c.reconnectAttempts
     | Except.error _ => 0) = 5
    ∧ jsInt (getField (getField constructorOptions "reconnect") "attempts") = -1 := by
  constructor
  · have h1 : recursiveAssign constructorOptions
        (JSVal.obj [("reconnect", JSVal.obj [("attempts", JSVal.num 5)])])
          = mutatedOptions := by
      simp [recursiveAssign, mergeFields, mergeEntry, setField, constructorOptions,
            List.lookup, mutatedOptions]
    have h2 : recursiveAssign mutatedOptions (JSVal.obj []) = mutatedOptions := by
      simp [recursiveAssign, mergeFields, mutatedOptions]
    simp only [construct, h1, h2]
    rfl
  · rfl

/-- C10: a falsy site argument makes the constructor throw
`Site address is not specified` before any connection step is reached;
only the (already performed) merge into the shared options remains. -/
theorem falsy_site_constructor_throws (defaults site opts : JSVal)
    (h : truthy site = false) :
    (construct defaults site opts).2 = Except.error "Site address is not specified"
    ∧ (construct defaults site opts).1 = recursiveAssign defaults opts := by
  simp [construct, h]

theorem falsy_site_constructor_throws_witness :
    truthy JSVal.null = false
    ∧ ((construct constructorOptions JSVal.null (JSVal.obj [])).2
         = Except.error "Site address is not specified"
       ∧ (construct constructorOptions JSVal.null (JSVal.obj [])).1
         = recursiveAssign constructorOptions (JSVal.obj [])) :=
  ⟨rfl, falsy_site_constructor_throws constructorOptions JSVal.null (JSVal.obj []) rfl⟩
